/-
Verification of the NPL mini runtime
(src/Client/trunk/ParaEngineClient/Core/NPLMiniRuntime.hpp).

The development shallowly embeds the three core components of the header:

* `NPLFileName` with `NPLFileName.FromString` / `NPLFileName.ToString` /
  `SetRelativePath` — the structured address scheme.  C strings are modelled
  as `List Char` (the characters before the terminating NUL); reading the
  position `s.length` yields the terminator.  `FromString` returns `none`
  exactly when the C code would dereference a position strictly beyond the
  terminator (an out-of-bounds read); that can happen only through the
  unclosed-parenthesis path, where the scan stops on the terminator and the
  code then increments past it.

* `MiniState` — one `CNPLMiniState`: mailbox queue, handler map
  (`std::map<std::string, boost::function>`; an entry whose value is `none`
  models a stored *empty* `boost::function`, which throws
  `bad_function_call` when invoked), processed-message counter and the
  current-message view maintained by the `CCurrentMessage` RAII guard.

* `Pool` — one `CNPLMiniRuntimeT`: allocation counter (`next`, standing for
  the addresses handed out by `new`, which never collide with live objects),
  the distinguished main state, the `std::set` of live states, the
  name-to-state map, and a heap mapping state identities to their contents
  (entries persist after pool removal, as `shared_ptr` keeps them alive).

Handlers are modelled by identifiers; an environment `env : Nat → HBeh`
gives each handler its behaviour: return normally, raise (throw a C++
exception), delete a state through the runtime, or create a state — the
re-entrant pool mutations the `Run` snapshot pattern must tolerate.
-/
import Mathlib

set_option linter.unusedVariables false

/-- CStr models the contents of a NUL-terminated C string: the characters
strictly before the terminator.  Positions `0 … length - 1` hold characters,
position `length` holds the terminator. -/
abbrev CStr := List Char

/-- Convert a Lean string literal to the C string model. -/
def chars (s : String) : CStr := s.toList

/-- Read the character at position `i` of the buffer; position `s.length`
(and, for `List.getD`, anything beyond) reads as the NUL terminator.  All
uses inside the parser are at positions `≤ s.length`; the single place where
the C code can move past the terminator is guarded explicitly. -/
def charAt (s : CStr) (i : Nat) : Char := s.getD i '\x00'

/-- Model of the C scanning loops `while (s[i] != c && s[i] != '\0') i++`:
the first position `≥ i` holding `c` or an embedded NUL, or `s.length`
(the terminator) when there is none. -/
def findStop (s : CStr) (c : Char) (i : Nat) : Nat :=
  i + (s.drop i).findIdx (fun x => x == c || x == '\x00')

/-- Substring of `nCount` characters starting at `start`
(`assign(sFilePath + start, nCount)`). -/
def substr (s : CStr) (start nCount : Nat) : CStr := (s.drop start).take nCount

/-- Replace every backslash by a forward slash (the normalisation loop of
`SetRelativePath`). -/
def normSlash (s : CStr) : CStr := s.map (fun c => if c = '\\' then '/' else c)

/-- NPLFileNameT::SetRelativePath: for `nCount ≤ 0` the whole C string at
`sPath` is copied (up to its NUL), otherwise exactly `nCount` characters;
afterwards every backslash of the copied text is turned into a slash. -/
def SetRelativePath (sPath : CStr) (nCount : Int) : CStr :=
  if nCount ≤ 0 then normSlash (sPath.takeWhile (fun c => c ≠ '\x00'))
  else normSlash (sPath.take nCount.toNat)

/-- NPLFileNameT: the four fields of a structured NPL address. -/
structure NPLFileName where
  sRuntimeStateName : CStr
  sNID : CStr
  sRelativePath : CStr
  sDNSServerName : CStr
deriving DecidableEq, Repr

/-- Tail of NPLFileNameT::FromString after the optional `(name)` prefix has
been consumed: `nNIDIndex` is the position the code resumes scanning at.
The C code dereferences `sFilePath[nNIDIndex]` unconditionally; when
`nNIDIndex > s.length` that read is past the terminator, out of the buffer,
and the model returns `none`. -/
def parseTail (s : CStr) (stName : CStr) (nNIDIndex : Nat) : Option NPLFileName :=
  if nNIDIndex > s.length then none
  else
    let j := findStop s ':' nNIDIndex
    if charAt s j = '\x00' then
      some ⟨stName, [], substr s nNIDIndex (j - nNIDIndex), []⟩
    else
      let sNID := if nNIDIndex < j then substr s nNIDIndex (j - nNIDIndex) else []
      let k := findStop s '@' (j + 1)
      let path := SetRelativePath (s.drop (j + 1)) ((k : Int) - ((j + 1 : Nat) : Int))
      if charAt s k = '\x00' then
        some ⟨stName, sNID, path, []⟩
      else
        some ⟨stName, sNID, path, substr s (k + 1) (findStop s '\x00' (k + 1) - (k + 1))⟩

/-- NPLFileNameT::FromString.  An empty input clears every field.  A leading
`(` starts the runtime-state-name scan: the code skips to the first `)` (or
the terminator), steps once more, and treats the special case `(gl` — scan
having ended at position 3 — as the empty canonical name. -/
def NPLFileName.FromString (s : CStr) : Option NPLFileName :=
  if s.length = 0 then some ⟨[], [], [], []⟩
  else if charAt s 0 = '(' then
    let i := findStop s ')' 1 + 1
    let stName :=
      if i = 4 ∧ charAt s 1 = 'g' ∧ charAt s 2 = 'l' then []
      else substr s 1 (i - 2)
    parseTail s stName i
  else parseTail s [] 0

/-- NPLFileNameT::ToString: note that the code appends `sNID` and then
`sRelativePath` directly, with no `:` separator between them, although its
own doc comment promises the format `[sNID:]`. -/
def NPLFileName.ToString (f : NPLFileName) : CStr :=
  (if f.sRuntimeStateName ≠ [] then '(' :: f.sRuntimeStateName ++ [')'] else [])
    ++ f.sNID ++ f.sRelativePath
    ++ (if f.sDNSServerName ≠ [] then '@' :: f.sDNSServerName else [])

/-! ### Association lists: the `std::map` operations used by the runtime -/

/-- Insert-or-assign (`m[k] = v`): replaces the value when the key exists. -/
def alistInsert {κ α : Type} [DecidableEq κ] : List (κ × α) → κ → α → List (κ × α)
  | [], k, v => [(k, v)]
  | (k0, v0) :: rest, k, v =>
      if k0 = k then (k, v) :: rest else (k0, v0) :: alistInsert rest k v

/-- Map lookup (`find`). -/
def alistLookup {κ α : Type} [DecidableEq κ] : List (κ × α) → κ → Option α
  | [], _ => none
  | (k0, v0) :: rest, k => if k0 = k then some v0 else alistLookup rest k

/-- Map erase by key. -/
def alistErase {κ α : Type} [DecidableEq κ] : List (κ × α) → κ → List (κ × α)
  | [], _ => []
  | (k0, v0) :: rest, k => if k0 = k then rest else (k0, v0) :: alistErase rest k

/-- Ordered insertion into the model of `std::set` (ordered by identity,
duplicates ignored). -/
def setInsert : List Nat → Nat → List Nat
  | [], i => [i]
  | j :: rest, i =>
      if i < j then i :: j :: rest
      else if i = j then j :: rest
      else j :: setInsert rest i

/-! ### CNPLMiniState and the runtime pool -/

/-- NPLMiniMessage: target filename, payload code, message type (the
constructor used by `activate` always sets type 0). -/
structure NPLMiniMessage where
  m_sFilename : CStr
  m_sCode : CStr
  m_type : Nat
deriving DecidableEq, Repr

/-- CNPLMiniState.  The handler map stores `Option Nat`: `some h` is a real
callback (identified by `h`), `none` is an *empty* `boost::function` — the
value stored when a caller registers a null callback.  `m_current_msg` is
`some code` exactly while a handler invocation is in flight. -/
structure MiniState where
  m_name : CStr
  m_input_queue : List NPLMiniMessage
  m_file_handlers_map : List (CStr × Option Nat)
  m_processed_msg_count : Nat
  m_current_msg : Option CStr
deriving DecidableEq, Repr

/-- State contents produced by the CNPLMiniState constructor. -/
def mkMiniState (name : CStr) : MiniState := ⟨name, [], [], 0, none⟩

/-- CNPLMiniRuntimeT.  `next` is the supply of fresh object identities
("addresses"); `heap` maps identities to state contents and its entries
persist after pool removal, because `shared_ptr` references keep the object
alive. -/
structure Pool where
  next : Nat
  mainId : Nat
  m_runtime_states : List Nat
  m_active_state_map : List (CStr × Nat)
  heap : List (Nat × MiniState)
deriving DecidableEq, Repr

/-- Dereference a state identity (default contents for dangling identities;
theorems only ever use live ones). -/
def heapGet (pool : Pool) (i : Nat) : MiniState :=
  (alistLookup pool.heap i).getD (mkMiniState [])

/-- Write through a state identity. -/
def heapSet (pool : Pool) (i : Nat) (st : MiniState) : Pool :=
  { pool with heap := alistInsert pool.heap i st }

/-- CNPLMiniRuntimeT::GetRuntimeState: the empty name short-circuits to the
main state; otherwise the name map is consulted. -/
def GetRuntimeState (pool : Pool) (name : CStr) : Option Nat :=
  if name = [] then some pool.mainId
  else alistLookup pool.m_active_state_map name

/-- CNPLMiniRuntimeT::CreateRuntimeState: get, and only on a miss allocate a
fresh state, insert it into the live set and — when named — the name map. -/
def CreateRuntimeState (pool : Pool) (name : CStr) : Nat × Pool :=
  match GetRuntimeState pool name with
  | some id => (id, pool)
  | none =>
      let id := pool.next
      (id,
        { next := id + 1
          mainId := pool.mainId
          m_runtime_states := setInsert pool.m_runtime_states id
          m_active_state_map :=
            if name ≠ [] then alistInsert pool.m_active_state_map name id
            else pool.m_active_state_map
          heap := alistInsert pool.heap id (mkMiniState name) })

/-- CNPLMiniRuntimeT::DeleteRuntimeState: a null pointer reports success; a
state found in the live set is erased from it and the function returns true
at once — the name-map erase below is reached only on the not-found path. -/
def DeleteRuntimeState (pool : Pool) (rt : Option Nat) : Bool × Pool :=
  match rt with
  | none => (true, pool)
  | some i =>
      if i ∈ pool.m_runtime_states then
        (true, { pool with m_runtime_states := pool.m_runtime_states.erase i })
      else
        let nm := (heapGet pool i).m_name
        (false,
          if nm ≠ [] then
            { pool with m_active_state_map := alistErase pool.m_active_state_map nm }
          else pool)

/-- The pool right after the CNPLMiniRuntimeT constructor, whose `Init`
creates the `"main"` state and stores it in `m_runtime_state_main`. -/
def initPool : Pool :=
  let r := CreateRuntimeState ⟨0, 0, [], [], []⟩ (chars "main")
  { r.2 with mainId := r.1 }

/-- Push one message onto a state's mailbox
(`CNPLMiniState::activate`, reached through `Activate_async`). -/
def enqueuePool (pool : Pool) (i : Nat) (filename code : CStr) : Pool :=
  heapSet pool i
    { heapGet pool i with
      m_input_queue := (heapGet pool i).m_input_queue ++ [⟨filename, code, 0⟩] }

/-- Return statuses of CNPLMiniRuntimeT::Activate.  The numeric values live
in NPL headers outside this repository; only their distinctness matters:
`ok` is NPL_OK, `error` is NPL_Error (the "not supported here" report for a
remote NID), `failedToLoadFile` is NPL_FailedToLoadFile, and `noSuchState`
is the bare `-1` returned when a named state cannot be found. -/
inductive ActStatus where
  | ok
  | error
  | failedToLoadFile
  | noSuchState
deriving DecidableEq, Repr

/-- CNPLMiniRuntimeT::Activate.  A null filename fails at once; then the
target text is parsed (a `none` propagates the parser's out-of-bounds read);
then — before looking at any parsed field — a null `pRuntimeState` routes to
the main state.  Only with a caller state present does the code branch on
`sNID` and `sRuntimeStateName`. -/
def Activate (pool : Pool) (fromState : Option Nat) (sNeuronFile : Option CStr)
    (code : CStr) : Option (ActStatus × Pool) :=
  match sNeuronFile with
  | none => some (.failedToLoadFile, pool)
  | some text =>
      match NPLFileName.FromString text with
      | none => none
      | some fn =>
          match fromState with
          | none => some (.ok, enqueuePool pool pool.mainId fn.sRelativePath code)
          | some fs =>
              if fn.sNID = [] then
                if fn.sRuntimeStateName ≠ [] then
                  match GetRuntimeState pool fn.sRuntimeStateName with
                  | some rts => some (.ok, enqueuePool pool rts fn.sRelativePath code)
                  | none => some (.noSuchState, pool)
                else some (.ok, enqueuePool pool fs fn.sRelativePath code)
              else some (.error, pool)

/-- CNPLMiniState::RegisterFileHandler: a null filename is refused;
otherwise `m_file_handlers_map[filename] = callback` — insert-or-assign,
storing the callback even when it is the empty function. -/
def RegisterFileHandler (st : MiniState) (filename : Option CStr) (cb : Option Nat) :
    Bool × MiniState :=
  match filename with
  | none => (false, st)
  | some f => (true, { st with m_file_handlers_map := alistInsert st.m_file_handlers_map f cb })

/-! ### Message processing and the Run cycle -/

/-- Behaviour of one registered callback when invoked.  `raise` throws a C++
exception out of the callback; the other constructors return normally after
performing the given re-entrant call on the runtime (these calls take the
pool mutex, which is legal because `Process` holds only the state mutex). -/
inductive HBeh where
  | ok
  | raise
  | deleteSelf
  | deleteId (i : Nat)
  | createState (n : CStr)
deriving DecidableEq, Repr

/-- Execute a callback body: the pool after its re-entrant calls, plus
whether it threw. -/
def runHandler (env : Nat → HBeh) (h : Nat) (selfId : Nat) (pool : Pool) :
    Pool × Bool :=
  match env h with
  | .ok => (pool, false)
  | .raise => (pool, true)
  | .deleteSelf => ((DeleteRuntimeState pool (some selfId)).2, false)
  | .deleteId i => ((DeleteRuntimeState pool (some i)).2, false)
  | .createState n => ((CreateRuntimeState pool n).2, false)

/-- Write the current-message view of a state
(`CNPLMiniState::SetCurrentMessage`). -/
def setCurrentMsg (pool : Pool) (i : Nat) (m : Option CStr) : Pool :=
  heapSet pool i { heapGet pool i with m_current_msg := m }

/-- Increment a state's processed-message counter
(`++m_processed_msg_count`, the first statement of `ProcessMsg`). -/
def bumpProcessed (pool : Pool) (i : Nat) : Pool :=
  heapSet pool i
    { heapGet pool i with
      m_processed_msg_count := (heapGet pool i).m_processed_msg_count + 1 }

/-- Result of dispatching a single message: the pool afterwards, the list of
callback invocations that ran (state, handler, payload), and whether a C++
exception escaped the dispatch. -/
structure PMRes where
  pool : Pool
  trace : List (Nat × Nat × CStr)
  raised : Bool
deriving DecidableEq, Repr

/-- CNPLMiniState::ProcessMsg.  The processed counter is incremented first,
unconditionally.  For a type-0 message the handler map is consulted; on a
hit the `CCurrentMessage` guard sets the current message, the stored
function object is invoked — an *empty* stored function throws
`bad_function_call` — and the guard restores the current message to absent
on every exit path, normal or throwing. -/
def ProcessMsg (env : Nat → HBeh) (pool : Pool) (selfId : Nat)
    (msg : NPLMiniMessage) : PMRes :=
  let pool := bumpProcessed pool selfId
  if msg.m_type = 0 then
    match alistLookup (heapGet pool selfId).m_file_handlers_map msg.m_sFilename with
    | none => ⟨pool, [], false⟩
    | some cb =>
        let pool := setCurrentMsg pool selfId (some msg.m_sCode)
        match cb with
        | none => ⟨setCurrentMsg pool selfId none, [], true⟩
        | some h =>
            let r := runHandler env h selfId pool
            ⟨setCurrentMsg r.1 selfId none, [(selfId, h, msg.m_sCode)], r.2⟩
  else ⟨pool, [], false⟩

/-- Pop the front of a state's mailbox (`m_input_queue.pop()`). -/
def popQueue (pool : Pool) (i : Nat) : Pool :=
  heapSet pool i
    { heapGet pool i with m_input_queue := (heapGet pool i).m_input_queue.tail }

/-- Result of one `Process` call: the pool afterwards, the number of
messages drained (popped), the callback invocations in dispatch order, and
whether an exception escaped (in which case the C caller never receives the
count and the failing message was not popped). -/
structure PRes where
  pool : Pool
  count : Nat
  trace : List (Nat × Nat × CStr)
  raised : Bool
deriving DecidableEq, Repr

/-- Drain loop of CNPLMiniState::Process: dispatch the front message, pop
it, repeat while the queue is non-empty.  A throwing dispatch propagates
before the pop.  The message list argument is the queue contents: callbacks
cannot touch the queue (they would self-deadlock on the state mutex held for
the whole drain, and no `HBeh` does so). -/
def ProcessLoop (env : Nat → HBeh) (selfId : Nat) :
    List NPLMiniMessage → Pool → PRes
  | [], pool => ⟨pool, 0, [], false⟩
  | msg :: rest, pool =>
      let r := ProcessMsg env pool selfId msg
      if r.raised then ⟨r.pool, 0, r.trace, true⟩
      else
        let pool1 := popQueue r.pool selfId
        let r2 := ProcessLoop env selfId rest pool1
        ⟨r2.pool, r2.count + 1, r.trace ++ r2.trace, r2.raised⟩

/-- CNPLMiniState::Process. -/
def Process (env : Nat → HBeh) (pool : Pool) (selfId : Nat) : PRes :=
  ProcessLoop env selfId (heapGet pool selfId).m_input_queue pool

/-- Result of one `Run` cycle: the pool afterwards, the identities `Process`
was called on, and whether an exception escaped the cycle. -/
structure RunRes where
  pool : Pool
  trace : List Nat
  raised : Bool
deriving DecidableEq, Repr

/-- Iteration of CNPLMiniRuntimeT::Run over the scratch snapshot: each
snapshotted state is processed once; a throwing `Process` aborts the rest of
the cycle (the exception propagates out of `Run`). -/
def RunLoop (env : Nat → HBeh) : List Nat → Pool → RunRes
  | [], pool => ⟨pool, [], false⟩
  | id :: rest, pool =>
      let r := Process env pool id
      if r.raised then ⟨r.pool, [id], true⟩
      else
        let r2 := RunLoop env rest r.pool
        ⟨r2.pool, id :: r2.trace, r2.raised⟩

/-- CNPLMiniRuntimeT::Run: under the pool lock every live state reference is
copied into the scratch vector, the lock is released, and each snapshotted
state is processed. -/
def Run (env : Nat → HBeh) (pool : Pool) : RunRes :=
  RunLoop env pool.m_runtime_states pool

example : NPLFileName.FromString (chars "(worker)user@pe.com:script/a.lua@dns") =
    some ⟨chars "worker", chars "user@pe.com", chars "script/a.lua", chars "dns"⟩ := by decide

example : NPLFileName.FromString (chars "(gl)script/hello.lua") =
    some ⟨[], [], chars "script/hello.lua", []⟩ := by decide

example : NPLFileName.FromString (chars "a\\b:c\\d") =
    some ⟨[], chars "a\\b", chars "c/d", []⟩ := by decide

example : NPLFileName.FromString (chars "ab:@ef") =
    some ⟨[], chars "ab", chars "@ef", chars "ef"⟩ := by decide

example : NPLFileName.FromString [] = some ⟨[], [], [], []⟩ := by decide

/-- Expected callback invocations for one message under a given handler map:
one invocation when the message has type 0 and its path is mapped to a real
(non-empty) callback, nothing otherwise. -/
def dispatchOne (hmap : List (CStr × Option Nat)) (selfId : Nat)
    (m : NPLMiniMessage) : List (Nat × Nat × CStr) :=
  if m.m_type = 0 then
    match alistLookup hmap m.m_sFilename with
    | some (some h) => [(selfId, h, m.m_sCode)]
    | _ => []
  else []

/-- Expected dispatch record of a queue drain: the per-message invocations
in queue order; unmapped messages contribute nothing.  This is the
characterisation the FIFO-dispatch claims are stated against. -/
def dispatchTrace (hmap : List (CStr × Option Nat)) (selfId : Nat) :
    List NPLMiniMessage → List (Nat × Nat × CStr)
  | [] => []
  | m :: rest => dispatchOne hmap selfId m ++ dispatchTrace hmap selfId rest

/-- Well-formedness of the stored function objects: no state's handler map
holds an empty `boost::function` (those are only produced by registering a
null callback, and invoking one throws `bad_function_call`). -/
def HOk (pool : Pool) : Prop :=
  ∀ e ∈ pool.heap, ∀ kv ∈ e.2.m_file_handlers_map, kv.2 ≠ none

instance (pool : Pool) : Decidable (HOk pool) := by
  unfold HOk; infer_instance

/-! ### Concrete pools and environments used by individual claims -/

/-- Environment in which every callback returns normally. -/
def envOk : Nat → HBeh := fun _ => .ok

/-- Pool for claim C3: a state (identity 1) with three queued messages, the
first two for the handled path `"p"`, the third for the unhandled `"q"`. -/
def poolC3 : Pool :=
  { next := 2, mainId := 0,
    m_runtime_states := [0, 1],
    m_active_state_map := [(chars "main", 0)],
    heap := [(0, mkMiniState (chars "main")),
             (1, ⟨chars "s",
                  [⟨chars "p", chars "1", 0⟩, ⟨chars "p", chars "2", 0⟩,
                   ⟨chars "q", chars "3", 0⟩],
                  [(chars "p", some 4)], 0, none⟩)] }

/-- Environment for claim C6: every callback deletes its own state through
the runtime while being dispatched. -/
def envDel : Nat → HBeh := fun _ => .deleteSelf

/-- Pool for claim C6: the main state plus a named state `"w1"` whose single
queued message triggers a self-deleting callback. -/
def poolC6 : Pool :=
  { next := 2, mainId := 0,
    m_runtime_states := [0, 1],
    m_active_state_map := [(chars "main", 0), (chars "w1", 1)],
    heap := [(0, mkMiniState (chars "main")),
             (1, ⟨chars "w1", [⟨chars "p", chars "go", 0⟩],
                  [(chars "p", some 9)], 0, none⟩)] }

/-- Pool for the C8 witness: a state (identity 1) whose path `"p"` is mapped
to the real callback 8. -/
def poolC8b : Pool :=
  { next := 2, mainId := 0,
    m_runtime_states := [0, 1],
    m_active_state_map := [(chars "main", 0)],
    heap := [(0, mkMiniState (chars "main")),
             (1, ⟨chars "s", [], [(chars "p", some 8)], 0, none⟩)] }

/-- Pool for claim C5: a fresh runtime plus one named state `"w1"`. -/
def poolC5 : Pool := (CreateRuntimeState initPool (chars "w1")).2

/-- Identity of the `"w1"` state of `poolC5`. -/
def idC5 : Nat := (CreateRuntimeState initPool (chars "w1")).1

/-- Result of deleting the `"w1"` state from `poolC5`. -/
def delC5 : Bool × Pool := DeleteRuntimeState poolC5 (some idC5)

/-- Pool for claim C7: the main state plus a state `"w1"` (identity 1)
holding two queued messages for path `"p"`, handled by callback 3. -/
def poolC7 : Pool :=
  { next := 2, mainId := 0,
    m_runtime_states := [0, 1],
    m_active_state_map := [(chars "main", 0), (chars "w1", 1)],
    heap := [(0, mkMiniState (chars "main")),
             (1, ⟨chars "w1", [⟨chars "p", chars "1", 0⟩, ⟨chars "p", chars "2", 0⟩],
                  [(chars "p", some 3)], 0, none⟩)] }

/-- Environment for claim C7: every callback throws. -/
def envC7 : Nat → HBeh := fun _ => .raise

/-- State for claim C8: one real handler registered for path `"p"`. -/
def stC8 : MiniState := ⟨chars "s", [], [(chars "p", some 7)], 0, none⟩

/-- Pool for claim C8: identity 1 holds `stC8` after a null callback was
registered for `"p"`, with one message to `"p"` queued. -/
def poolC8 : Pool :=
  { next := 2, mainId := 0,
    m_runtime_states := [0, 1],
    m_active_state_map := [(chars "main", 0)],
    heap := [(0, mkMiniState (chars "main")),
             (1, { (RegisterFileHandler stC8 (some (chars "p")) none).2 with
                   m_input_queue := [⟨chars "p", chars "x", 0⟩] })] }

/-- Environment for claim C8: every callback returns normally. -/
def envC8 : Nat → HBeh := fun _ => .ok

/-! ### Claims settled by direct evaluation -/

/-- Claim C2 (code bug).  Round-tripping fails: `ToString` omits the `:`
separator after a non-empty `sNID` — contrary to its own documented format
`[(sRuntimeStateName|gl)][sNID:]sRelativePath[@sDNSServerName]` — so the
address with `sNID = "ab"`, `sRelativePath = "cd"` serialises to `"abcd"`,
which re-parses with an empty `sNID` and path `"abcd"`, not the original
address. -/
theorem C2_roundtrip_failure :
    NPLFileName.ToString ⟨[], chars "ab", chars "cd", []⟩ = chars "abcd" ∧
    NPLFileName.FromString (NPLFileName.ToString ⟨[], chars "ab", chars "cd", []⟩) =
      some ⟨[], [], chars "abcd", []⟩ ∧
    NPLFileName.FromString (NPLFileName.ToString ⟨[], chars "ab", chars "cd", []⟩) ≠
      some ⟨[], chars "ab", chars "cd", []⟩ := by decide

/-- Claim C9 (code bug).  On an opening parenthesis with no closing one the
scan stops at the terminator, the code increments the index past it and then
dereferences `sFilePath` out of bounds (the model's `none`); a well-formed
parenthesis group parses fine. -/
theorem C9_out_of_bounds_parse :
    NPLFileName.FromString (chars "(ab") = none ∧
    NPLFileName.FromString (chars "(") = none ∧
    NPLFileName.FromString (chars "(ab)cd") = some ⟨chars "ab", [], chars "cd", []⟩ := by
  decide

/-- Claim C4 (code bug).  `CreateRuntimeState ""` first calls
`GetRuntimeState ""`, which returns the always-present main state, so both
calls return the main state itself and create nothing — not two distinct
fresh anonymous instances.  (The non-empty-name half of the claim does hold:
a second `CreateRuntimeState "w1"` returns the first instance.) -/
theorem C4_empty_name_returns_main :
    (CreateRuntimeState initPool []).1 = initPool.mainId ∧
    (CreateRuntimeState initPool []).2 = initPool ∧
    (CreateRuntimeState (CreateRuntimeState initPool []).2 []).1 = initPool.mainId ∧
    (CreateRuntimeState (CreateRuntimeState initPool (chars "w1")).2 (chars "w1")).1 =
      (CreateRuntimeState initPool (chars "w1")).1 := by decide

/-- Claim C5 (code bug).  Deleting the named state `"w1"` that is present in
the live set erases it from `m_runtime_states` and returns true immediately
— the `m_active_state_map` erase sits on the not-found branch and is never
reached — so the name map keeps an entry pointing at the removed state, the
claimed inclusion invariant is broken, and `GetRuntimeState "w1"` still
resolves it. -/
theorem C5_delete_keeps_name_entry :
    delC5.1 = true ∧
    idC5 ∉ delC5.2.m_runtime_states ∧
    alistLookup delC5.2.m_active_state_map (chars "w1") = some idC5 ∧
    GetRuntimeState delC5.2 (chars "w1") = some idC5 := by decide

/-- Claim C1, counterexample.  With `fromState` absent and the target
`"ab:cd"` — whose parsed `sNID` is the non-empty `"ab"` — `Activate` does
not return the "not supported here" status: the null-`pRuntimeState` check
comes first and the message is enqueued into the main state with status
NPL_OK. -/
theorem C1_counterexample :
    NPLFileName.FromString (chars "ab:cd") = some ⟨[], chars "ab", chars "cd", []⟩ ∧
    (Activate initPool none (some (chars "ab:cd")) (chars "hi")).map Prod.fst =
      some ActStatus.ok ∧
    (Activate initPool none (some (chars "ab:cd")) (chars "hi")).map
        (fun r => (heapGet r.2 initPool.mainId).m_input_queue) =
      some [⟨chars "cd", chars "hi", 0⟩] ∧
    ActStatus.ok ≠ ActStatus.error := by decide

/-- Claim C7, counterexample.  With both queued messages handled by a
throwing callback, the first dispatch raises: the exception escapes
`Process` (raised = true), the second message is never dispatched, nothing
was popped (the failing message is still at the front), and only the
current-message guard unwound correctly. -/
theorem C7_counterexample :
    (Process envC7 poolC7 1).raised = true ∧
    (Process envC7 poolC7 1).trace = [(1, 3, chars "1")] ∧
    (Process envC7 poolC7 1).count = 0 ∧
    (heapGet (Process envC7 poolC7 1).pool 1).m_input_queue =
      [⟨chars "p", chars "1", 0⟩, ⟨chars "p", chars "2", 0⟩] ∧
    (heapGet (Process envC7 poolC7 1).pool 1).m_current_msg = none := by decide

/-- Claim C8, counterexample.  Registering a null callback for `"p"` does
not remove the registration: the map keeps an entry holding an empty
function object, and the next message to `"p"` finds it and throws
`bad_function_call` out of `Process` instead of being silently dropped. -/
theorem C8_counterexample :
    (RegisterFileHandler stC8 (some (chars "p")) none).1 = true ∧
    (RegisterFileHandler stC8 (some (chars "p")) none).2.m_file_handlers_map =
      [(chars "p", none)] ∧
    (Process envC8 poolC8 1).raised = true ∧
    (Process envC8 poolC8 1).trace = [] := by decide

/-- Claim C10, counterexample.  The input `"a\b@c"` contains no `:`, so the
whole text becomes the path verbatim: the `@c` suffix is not split into the
resolver (which stays empty) and the backslash is not normalised — both
contrary to the claim's predicted `⟨"", "", "a/b", "c"⟩`. -/
theorem C10_counterexample :
    NPLFileName.FromString (chars "a\\b@c") = some ⟨[], [], chars "a\\b@c", []⟩ ∧
    (⟨[], [], chars "a\\b@c", []⟩ : NPLFileName) ≠ ⟨[], [], chars "a/b", chars "c"⟩ := by
  decide

/-! ### Association-list and heap lemmas -/

theorem alistLookup_insert_self {κ α : Type} [DecidableEq κ] (m : List (κ × α)) (k : κ)
    (v : α) : alistLookup (alistInsert m k v) k = some v := by
  induction m with
  | nil => simp [alistInsert, alistLookup]
  | cons kv rest ih =>
      obtain ⟨k0, v0⟩ := kv
      by_cases h : k0 = k
      · simp [alistInsert, alistLookup, h]
      · simp [alistInsert, alistLookup, h, ih]

theorem alistLookup_insert_ne {κ α : Type} [DecidableEq κ] (m : List (κ × α)) (k j : κ)
    (v : α) (hj : j ≠ k) : alistLookup (alistInsert m k v) j = alistLookup m j := by
  induction m with
  | nil => simp [alistInsert, alistLookup, Ne.symm hj]
  | cons kv rest ih =>
      obtain ⟨k0, v0⟩ := kv
      by_cases h : k0 = k
      · subst h
        simp [alistInsert, alistLookup, Ne.symm hj]
      · by_cases h2 : k0 = j <;> simp [alistInsert, alistLookup, h, h2, hj, ih]

theorem alistLookup_mem {κ α : Type} [DecidableEq κ] {m : List (κ × α)} {k : κ} {v : α}
    (h : alistLookup m k = some v) : (k, v) ∈ m := by
  induction m with
  | nil => simp [alistLookup] at h
  | cons kv rest ih =>
      obtain ⟨k0, v0⟩ := kv
      by_cases hk : k0 = k
      · subst hk
        simp [alistLookup] at h
        subst h
        exact List.mem_cons_self _ _
      · simp only [alistLookup, if_neg hk] at h
        exact List.mem_cons_of_mem _ (ih h)

theorem mem_alistInsert {κ α : Type} [DecidableEq κ] {m : List (κ × α)} {k : κ} {v : α}
    {x : κ × α} (h : x ∈ alistInsert m k v) : x = (k, v) ∨ x ∈ m := by
  induction m with
  | nil => simpa [alistInsert] using h
  | cons kv rest ih =>
      obtain ⟨k0, v0⟩ := kv
      by_cases hk : k0 = k
      · subst hk
        simp only [alistInsert, if_pos rfl] at h
        rcases List.mem_cons.mp h with h1 | h1
        · exact Or.inl h1
        · exact Or.inr (List.mem_cons_of_mem _ h1)
      · simp only [alistInsert, if_neg hk] at h
        rcases List.mem_cons.mp h with h1 | h1
        · exact Or.inr (h1 ▸ List.mem_cons_self _ _)
        · rcases ih h1 with h2 | h2
          · exact Or.inl h2
          · exact Or.inr (List.mem_cons_of_mem _ h2)

theorem heapGet_heapSet_self (pool : Pool) (i : Nat) (st : MiniState) :
    heapGet (heapSet pool i st) i = st := by
  simp [heapGet, heapSet, alistLookup_insert_self]

theorem heapGet_heapSet_ne (pool : Pool) (i j : Nat) (st : MiniState) (h : j ≠ i) :
    heapGet (heapSet pool i st) j = heapGet pool j := by
  simp [heapGet, heapSet, alistLookup_insert_ne _ _ _ _ h]

theorem heapGet_eq_of_heap_eq {p1 p2 : Pool} (h : p1.heap = p2.heap) (j : Nat) :
    heapGet p1 j = heapGet p2 j := by
  simp [heapGet, h]

/-! ### Pool-operation preservation lemmas -/

theorem DeleteRuntimeState_heap (pool : Pool) (rt : Option Nat) :
    (DeleteRuntimeState pool rt).2.heap = pool.heap := by
  cases rt with
  | none => rfl
  | some i =>
      simp only [DeleteRuntimeState]
      split
      · rfl
      · split <;> rfl

theorem DeleteRuntimeState_next (pool : Pool) (rt : Option Nat) :
    (DeleteRuntimeState pool rt).2.next = pool.next := by
  cases rt with
  | none => rfl
  | some i =>
      simp only [DeleteRuntimeState]
      split
      · rfl
      · split <;> rfl

theorem CreateRuntimeState_next_le (pool : Pool) (n : CStr) :
    pool.next ≤ (CreateRuntimeState pool n).2.next := by
  cases hg : GetRuntimeState pool n with
  | some id => simp [CreateRuntimeState, hg]
  | none =>
      simp only [CreateRuntimeState, hg]
      exact Nat.le_succ _

theorem CreateRuntimeState_heapGet_lt (pool : Pool) (n : CStr) (j : Nat)
    (hj : j < pool.next) : heapGet (CreateRuntimeState pool n).2 j = heapGet pool j := by
  cases hg : GetRuntimeState pool n with
  | some id => simp [CreateRuntimeState, hg]
  | none =>
      simp only [CreateRuntimeState, hg]
      simp [heapGet, alistLookup_insert_ne _ _ _ _ (Nat.ne_of_lt hj)]

theorem CreateRuntimeState_heap_cases (pool : Pool) (n : CStr) :
    (CreateRuntimeState pool n).2.heap = pool.heap ∨
    (CreateRuntimeState pool n).2.heap =
      alistInsert pool.heap pool.next (mkMiniState n) := by
  cases hg : GetRuntimeState pool n with
  | some id => exact Or.inl (by simp [CreateRuntimeState, hg])
  | none => exact Or.inr (by simp [CreateRuntimeState, hg])

/-! ### Handler-environment lemmas -/

theorem runHandler_next_le (env : Nat → HBeh) (hId selfId : Nat) (pool : Pool) :
    pool.next ≤ (runHandler env hId selfId pool).1.next := by
  cases henv : env hId with
  | ok => simp [runHandler, henv]
  | raise => simp [runHandler, henv]
  | deleteSelf => simp [runHandler, henv, DeleteRuntimeState_next]
  | deleteId i => simp [runHandler, henv, DeleteRuntimeState_next]
  | createState n => simpa [runHandler, henv] using CreateRuntimeState_next_le pool n

theorem runHandler_heapGet_lt (env : Nat → HBeh) (hId selfId : Nat) (pool : Pool)
    (j : Nat) (hj : j < pool.next) :
    heapGet (runHandler env hId selfId pool).1 j = heapGet pool j := by
  cases henv : env hId with
  | ok => simp [runHandler, henv]
  | raise => simp [runHandler, henv]
  | deleteSelf =>
      simpa [runHandler, henv] using
        heapGet_eq_of_heap_eq (DeleteRuntimeState_heap pool (some selfId)) j
  | deleteId i =>
      simpa [runHandler, henv] using
        heapGet_eq_of_heap_eq (DeleteRuntimeState_heap pool (some i)) j
  | createState n =>
      simpa [runHandler, henv] using CreateRuntimeState_heapGet_lt pool n j hj

theorem runHandler_not_raised (env : Nat → HBeh) (hId selfId : Nat) (pool : Pool)
    (h : env hId ≠ HBeh.raise) : (runHandler env hId selfId pool).2 = false := by
  cases henv : env hId with
  | ok => simp [runHandler, henv]
  | raise => exact absurd henv h
  | deleteSelf => simp [runHandler, henv]
  | deleteId i => simp [runHandler, henv]
  | createState n => simp [runHandler, henv]

/-! ### Handler-map well-formedness lemmas -/

theorem HOk_lookup {pool : Pool} (h : HOk pool) (i : Nat) :
    ∀ kv ∈ (heapGet pool i).m_file_handlers_map, kv.2 ≠ none := by
  intro kv hkv
  unfold heapGet at hkv
  cases hl : alistLookup pool.heap i with
  | none => rw [hl] at hkv; simp [mkMiniState] at hkv
  | some st =>
      rw [hl] at hkv
      exact h (i, st) (alistLookup_mem hl) kv hkv

theorem HOk_heapSet {pool : Pool} (h : HOk pool) (i : Nat) (st : MiniState)
    (hst : ∀ kv ∈ st.m_file_handlers_map, kv.2 ≠ none) : HOk (heapSet pool i st) := by
  intro e he kv hkv
  rcases mem_alistInsert he with rfl | he2
  · exact hst kv hkv
  · exact h e he2 kv hkv

theorem HOk_delete {pool : Pool} (h : HOk pool) (rt : Option Nat) :
    HOk (DeleteRuntimeState pool rt).2 := by
  intro e he
  rw [DeleteRuntimeState_heap] at he
  exact h e he

theorem HOk_create {pool : Pool} (h : HOk pool) (n : CStr) :
    HOk (CreateRuntimeState pool n).2 := by
  intro e he kv hkv
  rcases CreateRuntimeState_heap_cases pool n with hc | hc
  · rw [hc] at he; exact h e he kv hkv
  · rw [hc] at he
    rcases mem_alistInsert he with rfl | he2
    · simp [mkMiniState] at hkv
    · exact h e he2 kv hkv

theorem HOk_runHandler {pool : Pool} (h : HOk pool) (env : Nat → HBeh)
    (hId selfId : Nat) : HOk (runHandler env hId selfId pool).1 := by
  cases henv : env hId with
  | ok => simpa [runHandler, henv] using h
  | raise => simpa [runHandler, henv] using h
  | deleteSelf => simpa [runHandler, henv] using HOk_delete h (some selfId)
  | deleteId i => simpa [runHandler, henv] using HOk_delete h (some i)
  | createState n => simpa [runHandler, henv] using HOk_create h n

/-! ### Projection lemmas for the small state updaters -/

theorem setCurrentMsg_heapGet_self (pool : Pool) (i : Nat) (m : Option CStr) :
    heapGet (setCurrentMsg pool i m) i = { heapGet pool i with m_current_msg := m } := by
  unfold setCurrentMsg; exact heapGet_heapSet_self _ _ _

theorem setCurrentMsg_heapGet_ne (pool : Pool) (i j : Nat) (m : Option CStr)
    (h : j ≠ i) : heapGet (setCurrentMsg pool i m) j = heapGet pool j := by
  unfold setCurrentMsg; exact heapGet_heapSet_ne _ _ _ _ h

theorem setCurrentMsg_next (pool : Pool) (i : Nat) (m : Option CStr) :
    (setCurrentMsg pool i m).next = pool.next := rfl

theorem bumpProcessed_heapGet_self (pool : Pool) (i : Nat) :
    heapGet (bumpProcessed pool i) i =
      { heapGet pool i with
        m_processed_msg_count := (heapGet pool i).m_processed_msg_count + 1 } := by
  unfold bumpProcessed; exact heapGet_heapSet_self _ _ _

theorem bumpProcessed_heapGet_ne (pool : Pool) (i j : Nat) (h : j ≠ i) :
    heapGet (bumpProcessed pool i) j = heapGet pool j := by
  unfold bumpProcessed; exact heapGet_heapSet_ne _ _ _ _ h

theorem bumpProcessed_next (pool : Pool) (i : Nat) :
    (bumpProcessed pool i).next = pool.next := rfl

theorem bumpProcessed_map (pool : Pool) (i : Nat) :
    (heapGet (bumpProcessed pool i) i).m_file_handlers_map =
      (heapGet pool i).m_file_handlers_map := by
  rw [bumpProcessed_heapGet_self]

theorem HOk_setCurrentMsg {pool : Pool} (h : HOk pool) (i : Nat) (m : Option CStr) :
    HOk (setCurrentMsg pool i m) :=
  HOk_heapSet h i _ (fun kv hkv => HOk_lookup h i kv hkv)

theorem HOk_bumpProcessed {pool : Pool} (h : HOk pool) (i : Nat) :
    HOk (bumpProcessed pool i) :=
  HOk_heapSet h i _ (fun kv hkv => HOk_lookup h i kv hkv)

theorem HOk_popQueue {pool : Pool} (h : HOk pool) (i : Nat) : HOk (popQueue pool i) :=
  HOk_heapSet h i _ (fun kv hkv => HOk_lookup h i kv hkv)

theorem popQueue_heapGet_self (pool : Pool) (i : Nat) :
    heapGet (popQueue pool i) i =
      { heapGet pool i with m_input_queue := (heapGet pool i).m_input_queue.tail } := by
  unfold popQueue; exact heapGet_heapSet_self _ _ _

theorem popQueue_next (pool : Pool) (i : Nat) : (popQueue pool i).next = pool.next := rfl

theorem runHandler_heapGet_bump (env : Nat → HBeh) (hId selfId : Nat) (pool : Pool)
    (i2 : Nat) (m : Option CStr) (j : Nat) (hj : j < pool.next) :
    heapGet (runHandler env hId selfId (setCurrentMsg (bumpProcessed pool i2) i2 m)).1 j =
      heapGet (setCurrentMsg (bumpProcessed pool i2) i2 m) j :=
  runHandler_heapGet_lt env hId selfId (setCurrentMsg (bumpProcessed pool i2) i2 m) j hj

/-! ### Characterisation of a single message dispatch -/

theorem ProcessMsg_self_fields (env : Nat → HBeh) (pool : Pool) (selfId : Nat)
    (msg : NPLMiniMessage) (hlt : selfId < pool.next) :
    (heapGet (ProcessMsg env pool selfId msg).pool selfId).m_name =
      (heapGet pool selfId).m_name ∧
    (heapGet (ProcessMsg env pool selfId msg).pool selfId).m_input_queue =
      (heapGet pool selfId).m_input_queue ∧
    (heapGet (ProcessMsg env pool selfId msg).pool selfId).m_file_handlers_map =
      (heapGet pool selfId).m_file_handlers_map ∧
    (heapGet (ProcessMsg env pool selfId msg).pool selfId).m_processed_msg_count =
      (heapGet pool selfId).m_processed_msg_count + 1 ∧
    ((heapGet (ProcessMsg env pool selfId msg).pool selfId).m_current_msg = none ∨
      (heapGet (ProcessMsg env pool selfId msg).pool selfId).m_current_msg =
        (heapGet pool selfId).m_current_msg) := by
  simp only [ProcessMsg]
  by_cases ht : msg.m_type = 0
  · simp only [ht, if_true]
    cases hlk : alistLookup (heapGet (bumpProcessed pool selfId)
        selfId).m_file_handlers_map msg.m_sFilename with
    | none =>
        dsimp only
        rw [bumpProcessed_heapGet_self]
        exact ⟨rfl, rfl, rfl, rfl, Or.inr rfl⟩
    | some cb =>
        cases cb with
        | none =>
            dsimp only
            rw [setCurrentMsg_heapGet_self, setCurrentMsg_heapGet_self,
              bumpProcessed_heapGet_self]
            exact ⟨rfl, rfl, rfl, rfl, Or.inl rfl⟩
        | some hId =>
            dsimp only
            rw [setCurrentMsg_heapGet_self,
              runHandler_heapGet_bump env hId selfId pool selfId (some msg.m_sCode)
                selfId hlt,
              setCurrentMsg_heapGet_self, bumpProcessed_heapGet_self]
            exact ⟨rfl, rfl, rfl, rfl, Or.inl rfl⟩
  · simp only [ht, if_false]
    rw [bumpProcessed_heapGet_self]
    exact ⟨rfl, rfl, rfl, rfl, Or.inr rfl⟩

theorem ProcessMsg_next_le (env : Nat → HBeh) (pool : Pool) (selfId : Nat)
    (msg : NPLMiniMessage) : pool.next ≤ (ProcessMsg env pool selfId msg).pool.next := by
  simp only [ProcessMsg]
  by_cases ht : msg.m_type = 0
  · simp only [ht, if_true]
    cases hlk : alistLookup (heapGet (bumpProcessed pool selfId)
        selfId).m_file_handlers_map msg.m_sFilename with
    | none => exact Nat.le_refl _
    | some cb =>
        cases cb with
        | none => exact Nat.le_refl _
        | some hId =>
            dsimp only
            exact runHandler_next_le env hId selfId
              (setCurrentMsg (bumpProcessed pool selfId) selfId (some msg.m_sCode))
  · simp only [ht, if_false]
    exact Nat.le_refl _

theorem ProcessMsg_heapGet_other (env : Nat → HBeh) (pool : Pool) (selfId : Nat)
    (msg : NPLMiniMessage) (j : Nat) (hj : j < pool.next) (hne : j ≠ selfId) :
    heapGet (ProcessMsg env pool selfId msg).pool j = heapGet pool j := by
  simp only [ProcessMsg]
  by_cases ht : msg.m_type = 0
  · simp only [ht, if_true]
    cases hlk : alistLookup (heapGet (bumpProcessed pool selfId)
        selfId).m_file_handlers_map msg.m_sFilename with
    | none => exact bumpProcessed_heapGet_ne _ _ _ hne
    | some cb =>
        cases cb with
        | none =>
            dsimp only
            rw [setCurrentMsg_heapGet_ne _ _ _ _ hne, setCurrentMsg_heapGet_ne _ _ _ _ hne,
              bumpProcessed_heapGet_ne _ _ _ hne]
        | some hId =>
            dsimp only
            rw [setCurrentMsg_heapGet_ne _ _ _ _ hne,
              runHandler_heapGet_bump env hId selfId pool selfId (some msg.m_sCode) j hj,
              setCurrentMsg_heapGet_ne _ _ _ _ hne, bumpProcessed_heapGet_ne _ _ _ hne]
  · simp only [ht, if_false]
    exact bumpProcessed_heapGet_ne _ _ _ hne

theorem ProcessMsg_trace (env : Nat → HBeh) (pool : Pool) (selfId : Nat)
    (msg : NPLMiniMessage) :
    (ProcessMsg env pool selfId msg).trace =
      dispatchOne (heapGet pool selfId).m_file_handlers_map selfId msg := by
  simp only [ProcessMsg, dispatchOne, bumpProcessed_map]
  by_cases ht : msg.m_type = 0
  · simp only [ht, if_true]
    cases hlk : alistLookup (heapGet pool selfId).m_file_handlers_map msg.m_sFilename with
    | none => rfl
    | some cb => cases cb <;> rfl
  · simp [ht]

theorem ProcessMsg_not_raised (env : Nat → HBeh) (pool : Pool) (selfId : Nat)
    (msg : NPLMiniMessage) (henv : ∀ h, env h ≠ HBeh.raise)
    (hmap : ∀ kv ∈ (heapGet pool selfId).m_file_handlers_map, kv.2 ≠ none) :
    (ProcessMsg env pool selfId msg).raised = false := by
  simp only [ProcessMsg, bumpProcessed_map]
  by_cases ht : msg.m_type = 0
  · simp only [ht, if_true]
    cases hlk : alistLookup (heapGet pool selfId).m_file_handlers_map msg.m_sFilename with
    | none => rfl
    | some cb =>
        cases cb with
        | none => exact absurd rfl (hmap _ (alistLookup_mem hlk))
        | some hId =>
            dsimp only
            exact runHandler_not_raised env hId selfId _ (henv hId)
  · simp [ht]

theorem ProcessMsg_HOk (env : Nat → HBeh) (pool : Pool) (selfId : Nat)
    (msg : NPLMiniMessage) (h : HOk pool) : HOk (ProcessMsg env pool selfId msg).pool := by
  simp only [ProcessMsg]
  by_cases ht : msg.m_type = 0
  · simp only [ht, if_true]
    cases hlk : alistLookup (heapGet (bumpProcessed pool selfId)
        selfId).m_file_handlers_map msg.m_sFilename with
    | none => exact HOk_bumpProcessed h selfId
    | some cb =>
        cases cb with
        | none =>
            dsimp only
            exact HOk_setCurrentMsg (HOk_setCurrentMsg (HOk_bumpProcessed h selfId) _ _) _ _
        | some hId =>
            dsimp only
            exact HOk_setCurrentMsg
              (HOk_runHandler (HOk_setCurrentMsg (HOk_bumpProcessed h selfId) _ _)
                env hId selfId) _ _
  · simp only [ht, if_false]
    exact HOk_bumpProcessed h selfId

/-! ### The drain loop of Process -/

theorem ProcessLoop_cons_true (env : Nat → HBeh) (selfId : Nat) (m : NPLMiniMessage)
    (rest : List NPLMiniMessage) (pool : Pool)
    (hr : (ProcessMsg env pool selfId m).raised = true) :
    ProcessLoop env selfId (m :: rest) pool =
      ⟨(ProcessMsg env pool selfId m).pool, 0, (ProcessMsg env pool selfId m).trace,
        true⟩ := by
  simp [ProcessLoop, hr]

theorem ProcessLoop_cons_false (env : Nat → HBeh) (selfId : Nat) (m : NPLMiniMessage)
    (rest : List NPLMiniMessage) (pool : Pool)
    (hr : (ProcessMsg env pool selfId m).raised = false) :
    ProcessLoop env selfId (m :: rest) pool =
      ⟨(ProcessLoop env selfId rest
          (popQueue (ProcessMsg env pool selfId m).pool selfId)).pool,
        (ProcessLoop env selfId rest
          (popQueue (ProcessMsg env pool selfId m).pool selfId)).count + 1,
        (ProcessMsg env pool selfId m).trace ++
          (ProcessLoop env selfId rest
            (popQueue (ProcessMsg env pool selfId m).pool selfId)).trace,
        (ProcessLoop env selfId rest
          (popQueue (ProcessMsg env pool selfId m).pool selfId)).raised⟩ := by
  simp [ProcessLoop, hr]

theorem ProcessLoop_spec (env : Nat → HBeh) (selfId : Nat) (msgs : List NPLMiniMessage) :
    ∀ pool : Pool, selfId < pool.next →
      (heapGet pool selfId).m_input_queue = msgs →
      pool.next ≤ (ProcessLoop env selfId msgs pool).pool.next ∧
      (heapGet (ProcessLoop env selfId msgs pool).pool selfId).m_file_handlers_map =
        (heapGet pool selfId).m_file_handlers_map ∧
      (heapGet (ProcessLoop env selfId msgs pool).pool selfId).m_input_queue =
        msgs.drop (ProcessLoop env selfId msgs pool).count ∧
      (heapGet (ProcessLoop env selfId msgs pool).pool selfId).m_processed_msg_count =
        (heapGet pool selfId).m_processed_msg_count +
          (ProcessLoop env selfId msgs pool).count +
          (if (ProcessLoop env selfId msgs pool).raised then 1 else 0) ∧
      ((heapGet pool selfId).m_current_msg = none →
        (heapGet (ProcessLoop env selfId msgs pool).pool selfId).m_current_msg = none) ∧
      ((ProcessLoop env selfId msgs pool).raised = false →
        (ProcessLoop env selfId msgs pool).count = msgs.length ∧
        (ProcessLoop env selfId msgs pool).trace =
          dispatchTrace (heapGet pool selfId).m_file_handlers_map selfId msgs) ∧
      ((ProcessLoop env selfId msgs pool).raised = true →
        (ProcessLoop env selfId msgs pool).count < msgs.length) ∧
      ((∀ h, env h ≠ HBeh.raise) →
        (∀ kv ∈ (heapGet pool selfId).m_file_handlers_map, kv.2 ≠ none) →
        (ProcessLoop env selfId msgs pool).raised = false) ∧
      (HOk pool → HOk (ProcessLoop env selfId msgs pool).pool) := by
  induction msgs with
  | nil =>
      intro pool hlt hq
      exact ⟨Nat.le_refl _, rfl, hq, rfl, fun hc => hc, fun _ => ⟨rfl, rfl⟩,
        fun hcon => by simp [ProcessLoop] at hcon, fun _ _ => rfl, fun h => h⟩
  | cons m rest ih =>
      intro pool hlt hq
      obtain ⟨f_name, f_queue, f_map, f_count, f_cur⟩ :=
        ProcessMsg_self_fields env pool selfId m hlt
      have hnx1 : pool.next ≤ (ProcessMsg env pool selfId m).pool.next :=
        ProcessMsg_next_le env pool selfId m
      by_cases hr : (ProcessMsg env pool selfId m).raised = true
      · rw [ProcessLoop_cons_true env selfId m rest pool hr]
        dsimp only
        refine ⟨hnx1, f_map, ?_, ?_, ?_, ?_, ?_, ?_, ?_⟩
        · rw [f_queue, hq]
          exact (List.drop_zero _).symm
        · simp [f_count]
        · intro hc
          rcases f_cur with h0 | h0
          · exact h0
          · rw [h0, hc]
        · intro hcon
          exact absurd hcon (by decide)
        · intro _
          simp
        · intro henv hmap
          have hnr := ProcessMsg_not_raised env pool selfId m henv hmap
          rw [hr] at hnr
          exact absurd hnr (by decide)
        · intro hok
          exact ProcessMsg_HOk env pool selfId m hok
      · have hrf : (ProcessMsg env pool selfId m).raised = false := by
          cases hB : (ProcessMsg env pool selfId m).raised
          · rfl
          · exact absurd hB hr
        rw [ProcessLoop_cons_false env selfId m rest pool hrf]
        dsimp only
        have hq1 : (heapGet (popQueue (ProcessMsg env pool selfId m).pool selfId)
            selfId).m_input_queue = rest := by
          rw [popQueue_heapGet_self]
          show ((heapGet (ProcessMsg env pool selfId m).pool
            selfId).m_input_queue).tail = rest
          rw [f_queue, hq, List.tail_cons]
        have hlt1 : selfId < (popQueue (ProcessMsg env pool selfId m).pool selfId).next := by
          rw [popQueue_next]
          exact Nat.lt_of_lt_of_le hlt hnx1
        obtain ⟨g1, g2, g3, g4, g5, g6, g7, g8, g9⟩ := ih _ hlt1 hq1
        have hmap1 : (heapGet (popQueue (ProcessMsg env pool selfId m).pool selfId)
            selfId).m_file_handlers_map = (heapGet pool selfId).m_file_handlers_map := by
          rw [popQueue_heapGet_self]
          exact f_map
        have hcount1 : (heapGet (popQueue (ProcessMsg env pool selfId m).pool selfId)
            selfId).m_processed_msg_count =
            (heapGet pool selfId).m_processed_msg_count + 1 := by
          rw [popQueue_heapGet_self]
          exact f_count
        refine ⟨?_, ?_, ?_, ?_, ?_, ?_, ?_, ?_, ?_⟩
        · exact Nat.le_trans hnx1 (Nat.le_trans (Nat.le_of_eq rfl) g1)
        · rw [g2, hmap1]
        · rw [List.drop_succ_cons]
          exact g3
        · rw [g4, hcount1]
          omega
        · intro hc
          refine g5 ?_
          rw [popQueue_heapGet_self]
          show (heapGet (ProcessMsg env pool selfId m).pool selfId).m_current_msg = none
          rcases f_cur with h0 | h0
          · exact h0
          · rw [h0, hc]
        · intro hfr
          obtain ⟨hc6, ht6⟩ := g6 hfr
          constructor
          · rw [hc6, List.length_cons]
          · rw [ht6, hmap1, ProcessMsg_trace env pool selfId m]
            rfl
        · intro hrt
          have := g7 hrt
          simp only [List.length_cons]
          omega
        · intro henv hmvp
          refine g8 henv ?_
          rw [hmap1]
          exact hmvp
        · intro hok
          exact g9 (HOk_popQueue (ProcessMsg_HOk env pool selfId m hok) selfId)

/-! ### The Run cycle -/

theorem RunLoop_cons_false (env : Nat → HBeh) (id : Nat) (rest : List Nat) (pool : Pool)
    (hr : (Process env pool id).raised = false) :
    RunLoop env (id :: rest) pool =
      ⟨(RunLoop env rest (Process env pool id).pool).pool,
        id :: (RunLoop env rest (Process env pool id).pool).trace,
        (RunLoop env rest (Process env pool id).pool).raised⟩ := by
  simp [RunLoop, hr]

theorem RunLoop_spec (env : Nat → HBeh) (henv : ∀ h, env h ≠ HBeh.raise) :
    ∀ (ids : List Nat) (pool : Pool), HOk pool → (∀ i ∈ ids, i < pool.next) →
      (RunLoop env ids pool).raised = false ∧
      (RunLoop env ids pool).trace = ids ∧
      HOk (RunLoop env ids pool).pool ∧
      pool.next ≤ (RunLoop env ids pool).pool.next := by
  intro ids
  induction ids with
  | nil =>
      intro pool hok hlt
      exact ⟨rfl, rfl, hok, Nat.le_refl _⟩
  | cons id rest ih =>
      intro pool hok hlt
      have hid : id < pool.next := hlt id (List.mem_cons_self _ _)
      obtain ⟨s1, s2, s3, s4, s5, s6, s7, s8, s9⟩ :=
        ProcessLoop_spec env id (heapGet pool id).m_input_queue pool hid rfl
      have hraise : (Process env pool id).raised = false := s8 henv (HOk_lookup hok id)
      rw [RunLoop_cons_false env id rest pool hraise]
      dsimp only
      have hok2 : HOk (Process env pool id).pool := s9 hok
      have hnx : pool.next ≤ (Process env pool id).pool.next := s1
      have hlt2 : ∀ i ∈ rest, i < (Process env pool id).pool.next := fun i hi =>
        Nat.lt_of_lt_of_le (hlt i (List.mem_cons_of_mem _ hi)) hnx
      obtain ⟨r1, r2, r3, r4⟩ := ih (Process env pool id).pool hok2 hlt2
      exact ⟨r1, by rw [r2], r3, Nat.le_trans hnx r4⟩

/-! ### Remaining claims -/

/-- Claim C3 (confirmed).  One call to `Process` — with every invoked
callback returning normally, which failing callbacks would not (claim C7) —
drains the whole mailbox, returns the number of messages drained, adds that
number to `m_processed_msg_count` whether or not the messages had handlers,
and dispatches exactly the mapped messages in queue (FIFO) order; unmapped
messages trigger nothing and raise nothing. -/
theorem C3_process_drains (env : Nat → HBeh) (pool : Pool) (selfId : Nat)
    (hlt : selfId < pool.next)
    (henv : ∀ h, env h ≠ HBeh.raise)
    (hmap : ∀ kv ∈ (heapGet pool selfId).m_file_handlers_map, kv.2 ≠ none) :
    (Process env pool selfId).raised = false ∧
    (Process env pool selfId).count = (heapGet pool selfId).m_input_queue.length ∧
    (heapGet (Process env pool selfId).pool selfId).m_input_queue = [] ∧
    (heapGet (Process env pool selfId).pool selfId).m_processed_msg_count =
      (heapGet pool selfId).m_processed_msg_count +
        (heapGet pool selfId).m_input_queue.length ∧
    (Process env pool selfId).trace =
      dispatchTrace (heapGet pool selfId).m_file_handlers_map selfId
        (heapGet pool selfId).m_input_queue := by
  obtain ⟨s1, s2, s3, s4, s5, s6, s7, s8, s9⟩ :=
    ProcessLoop_spec env selfId (heapGet pool selfId).m_input_queue pool hlt rfl
  have hraise : (Process env pool selfId).raised = false := s8 henv hmap
  obtain ⟨hcnt, htr⟩ := s6 hraise
  simp only [Process]
  refine ⟨hraise, hcnt, ?_, ?_, htr⟩
  · rw [s3, hcnt, List.drop_length]
  · rw [s4, hcnt, s8 henv hmap]
    simp

/-- Claim C3, witness: a state with messages `"1"`, `"2"` on the handled
path `"p"` and `"3"` on the unhandled `"q"` drains fully in order. -/
theorem C3_process_drains_witness :
    (1 < poolC3.next ∧
      (∀ kv ∈ (heapGet poolC3 1).m_file_handlers_map, kv.2 ≠ none)) ∧
    ((∀ h, envOk h ≠ HBeh.raise) ∧
      ((Process envOk poolC3 1).raised = false ∧
        (Process envOk poolC3 1).count = (heapGet poolC3 1).m_input_queue.length ∧
        (heapGet (Process envOk poolC3 1).pool 1).m_input_queue = [] ∧
        (heapGet (Process envOk poolC3 1).pool 1).m_processed_msg_count =
          (heapGet poolC3 1).m_processed_msg_count +
            (heapGet poolC3 1).m_input_queue.length ∧
        (Process envOk poolC3 1).trace =
          dispatchTrace (heapGet poolC3 1).m_file_handlers_map 1
            (heapGet poolC3 1).m_input_queue)) :=
  ⟨⟨by decide, by decide⟩,
    ⟨fun h => HBeh.noConfusion, C3_process_drains envOk poolC3 1 (by decide)
      (fun h => HBeh.noConfusion) (by decide)⟩⟩

/-- Claim C6 (confirmed).  `Run` snapshots the live set, then processes each
snapshotted state exactly once (given callbacks that do not throw and no
stored empty function objects): the processed sequence is exactly the
snapshot, so a state deleted mid-cycle — including by its own handler — is
still processed only once and does not disturb the rest of the cycle, and a
state created mid-cycle is absent from the snapshot and not processed. -/
theorem C6_run_snapshot (env : Nat → HBeh) (pool : Pool)
    (henv : ∀ h, env h ≠ HBeh.raise) (hok : HOk pool)
    (hlt : ∀ i ∈ pool.m_runtime_states, i < pool.next)
    (hnd : pool.m_runtime_states.Nodup) :
    (Run env pool).raised = false ∧
    (Run env pool).trace = pool.m_runtime_states ∧
    (∀ i ∈ pool.m_runtime_states, (Run env pool).trace.count i = 1) ∧
    (∀ i, i ∉ pool.m_runtime_states → i ∉ (Run env pool).trace) := by
  obtain ⟨r1, r2, r3, r4⟩ := RunLoop_spec env henv pool.m_runtime_states pool hok hlt
  have r2x : (Run env pool).trace = pool.m_runtime_states := r2
  refine ⟨r1, r2x, ?_, ?_⟩
  · intro i hi
    rw [r2x]
    exact List.count_eq_one_of_mem hnd hi
  · intro i hi
    rw [r2x]
    exact hi

/-- Claim C6, witness: running a pool of two states where every callback
deletes its own state still processes exactly the snapshot `[0, 1]`. -/
theorem C6_run_snapshot_witness :
    (HOk poolC6 ∧ (∀ i ∈ poolC6.m_runtime_states, i < poolC6.next) ∧
      poolC6.m_runtime_states.Nodup) ∧
    ((∀ h, envDel h ≠ HBeh.raise) ∧
      ((Run envDel poolC6).raised = false ∧
        (Run envDel poolC6).trace = poolC6.m_runtime_states ∧
        (∀ i ∈ poolC6.m_runtime_states, (Run envDel poolC6).trace.count i = 1) ∧
        (∀ i, i ∉ poolC6.m_runtime_states → i ∉ (Run envDel poolC6).trace))) :=
  ⟨⟨by decide, by decide, by decide⟩,
    ⟨fun h => HBeh.noConfusion, C6_run_snapshot envDel poolC6
      (fun h => HBeh.noConfusion) (by decide) (by decide) (by decide)⟩⟩

/-- Claim C7 (corrected).  What does hold on a handler failure: the
`CCurrentMessage` guard unwinds (the current message ends absent on every
outcome), the drained messages are exactly the popped prefix — on a raising
exit the failing message and everything after it stay queued — and a raising
`Process` never popped the whole queue.  What the claim got wrong
(`C7_counterexample`): the failure escapes `Process` and the remaining
messages are not dispatched in that call. -/
theorem C7_failure_unwinds (env : Nat → HBeh) (pool : Pool) (selfId : Nat)
    (hlt : selfId < pool.next)
    (hcur : (heapGet pool selfId).m_current_msg = none) :
    (heapGet (Process env pool selfId).pool selfId).m_current_msg = none ∧
    (heapGet (Process env pool selfId).pool selfId).m_input_queue =
      (heapGet pool selfId).m_input_queue.drop (Process env pool selfId).count ∧
    ((Process env pool selfId).raised = true →
      (Process env pool selfId).count < (heapGet pool selfId).m_input_queue.length) := by
  obtain ⟨s1, s2, s3, s4, s5, s6, s7, s8, s9⟩ :=
    ProcessLoop_spec env selfId (heapGet pool selfId).m_input_queue pool hlt rfl
  exact ⟨s5 hcur, s3, s7⟩

/-- Claim C7, witness: the guard-unwinding statement applied to the raising
scenario of `poolC7`. -/
theorem C7_failure_unwinds_witness :
    (1 < poolC7.next ∧ (heapGet poolC7 1).m_current_msg = none) ∧
    ((heapGet (Process envC7 poolC7 1).pool 1).m_current_msg = none ∧
      (heapGet (Process envC7 poolC7 1).pool 1).m_input_queue =
        (heapGet poolC7 1).m_input_queue.drop (Process envC7 poolC7 1).count ∧
      ((Process envC7 poolC7 1).raised = true →
        (Process envC7 poolC7 1).count < (heapGet poolC7 1).m_input_queue.length)) :=
  ⟨⟨by decide, by decide⟩, C7_failure_unwinds envC7 poolC7 1 (by decide) (by decide)⟩

theorem ProcessMsg_raised (env : Nat → HBeh) (pool : Pool) (selfId : Nat)
    (msg : NPLMiniMessage) :
    (ProcessMsg env pool selfId msg).raised =
      (if msg.m_type = 0 then
        match alistLookup (heapGet pool selfId).m_file_handlers_map msg.m_sFilename with
        | none => false
        | some none => true
        | some (some h) =>
            (runHandler env h selfId
              (setCurrentMsg (bumpProcessed pool selfId) selfId (some msg.m_sCode))).2
      else false) := by
  simp only [ProcessMsg, bumpProcessed_map]
  by_cases ht : msg.m_type = 0
  · simp only [ht, if_true]
    cases hlk : alistLookup (heapGet pool selfId).m_file_handlers_map msg.m_sFilename with
    | none => rfl
    | some cb => cases cb <;> rfl
  · simp [ht]

/-- Claim C8 (corrected).  Replacement holds: registering a second handler
for a path overwrites the first, and a subsequent message to that path
invokes only the latest callback.  Null removal does not hold: registering a
null callback stores an empty function object under the path — the
registration stays in the map — and a message to that path then throws
`bad_function_call` out of the dispatch instead of being silently dropped
(`C8_counterexample`). -/
theorem C8_register_semantics (st : MiniState) (p : CStr) (c : Option Nat) (h2 : Nat)
    (env : Nat → HBeh) (pool1 : Pool) (id1 : Nat) (code1 : CStr)
    (pool2 : Pool) (id2 : Nat) (code2 : CStr)
    (hB1 : alistLookup (heapGet pool1 id1).m_file_handlers_map p = some (some h2))
    (hB2 : env h2 = HBeh.ok)
    (hC1 : alistLookup (heapGet pool2 id2).m_file_handlers_map p = some none) :
    alistLookup (RegisterFileHandler
        (RegisterFileHandler st (some p) c).2 (some p) (some h2)).2.m_file_handlers_map p =
      some (some h2) ∧
    (ProcessMsg env pool1 id1 ⟨p, code1, 0⟩).trace = [(id1, h2, code1)] ∧
    (ProcessMsg env pool1 id1 ⟨p, code1, 0⟩).raised = false ∧
    (ProcessMsg env pool2 id2 ⟨p, code2, 0⟩).raised = true ∧
    (ProcessMsg env pool2 id2 ⟨p, code2, 0⟩).trace = [] := by
  refine ⟨?_, ?_, ?_, ?_, ?_⟩
  · simp [RegisterFileHandler, alistLookup_insert_self]
  · rw [ProcessMsg_trace]
    simp [dispatchOne, hB1]
  · rw [ProcessMsg_raised]
    simp [hB1, runHandler, hB2]
  · rw [ProcessMsg_raised]
    simp [hC1]
  · rw [ProcessMsg_trace]
    simp [dispatchOne, hC1]

/-- Claim C8, witness: the replacement and null-registration behaviours at
concrete states and pools. -/
theorem C8_register_semantics_witness :
    (alistLookup (heapGet poolC8b 1).m_file_handlers_map (chars "p") = some (some 8) ∧
      envOk 8 = HBeh.ok ∧
      alistLookup (heapGet poolC8 1).m_file_handlers_map (chars "p") = some none) ∧
    (alistLookup (RegisterFileHandler
        (RegisterFileHandler stC8 (some (chars "p")) (some 7)).2 (some (chars "p"))
        (some 8)).2.m_file_handlers_map (chars "p") = some (some 8) ∧
      (ProcessMsg envOk poolC8b 1 ⟨chars "p", chars "c1", 0⟩).trace =
        [(1, 8, chars "c1")] ∧
      (ProcessMsg envOk poolC8b 1 ⟨chars "p", chars "c1", 0⟩).raised = false ∧
      (ProcessMsg envOk poolC8 1 ⟨chars "p", chars "c2", 0⟩).raised = true ∧
      (ProcessMsg envOk poolC8 1 ⟨chars "p", chars "c2", 0⟩).trace = []) :=
  ⟨⟨by decide, by decide, by decide⟩,
    C8_register_semantics stC8 (chars "p") (some 7) 8 envOk poolC8b 1 (chars "c1")
      poolC8 1 (chars "c2") (by decide) (by decide) (by decide)⟩

/-- Claim C1 (corrected).  The routing precedence of the claim holds when a
caller state is given: a non-empty parsed `sNID` is rejected with the
distinct NPL_Error status, otherwise a non-empty parsed state name is
resolved through the name map (enqueueing there, or the distinct `-1` status
when absent), otherwise the message goes to the caller's own state.  When
the caller state is absent, however, `Activate` enqueues into the main state
unconditionally — before looking at any parsed field — so a remote or named
target is not rejected or redirected (`C1_counterexample`). -/
theorem C1_routing (pool : Pool) (fs : Nat) (text : CStr) (fn : NPLFileName)
    (code : CStr) (hparse : NPLFileName.FromString text = some fn) :
    Activate pool none (some text) code =
      some (ActStatus.ok, enqueuePool pool pool.mainId fn.sRelativePath code) ∧
    (fn.sNID ≠ [] →
      Activate pool (some fs) (some text) code = some (ActStatus.error, pool)) ∧
    (fn.sNID = [] → fn.sRuntimeStateName ≠ [] →
      Activate pool (some fs) (some text) code =
        (match alistLookup pool.m_active_state_map fn.sRuntimeStateName with
         | some rts => some (ActStatus.ok, enqueuePool pool rts fn.sRelativePath code)
         | none => some (ActStatus.noSuchState, pool))) ∧
    (fn.sNID = [] → fn.sRuntimeStateName = [] →
      Activate pool (some fs) (some text) code =
        some (ActStatus.ok, enqueuePool pool fs fn.sRelativePath code)) := by
  refine ⟨?_, ?_, ?_, ?_⟩
  · simp [Activate, hparse]
  · intro hnid
    simp [Activate, hparse, hnid]
  · intro hnid hname
    simp only [Activate, hparse]
    simp only [hnid, if_true, hname, GetRuntimeState, if_neg hname]
    cases alistLookup pool.m_active_state_map fn.sRuntimeStateName <;> simp [hname]
  · intro hnid hname
    simp [Activate, hparse, hnid, hname, GetRuntimeState]

/-- Claim C1, witness: the amended routing at the freshly initialised pool,
target `"(w)x"` (named state `"w"`, which does not exist there). -/
theorem C1_routing_witness :
    NPLFileName.FromString (chars "(w)x") = some ⟨chars "w", [], chars "x", []⟩ ∧
    (Activate initPool none (some (chars "(w)x")) (chars "c") =
      some (ActStatus.ok,
        enqueuePool initPool initPool.mainId
          (NPLFileName.mk (chars "w") [] (chars "x") []).sRelativePath (chars "c")) ∧
    ((NPLFileName.mk (chars "w") [] (chars "x") []).sNID ≠ [] →
      Activate initPool (some 0) (some (chars "(w)x")) (chars "c") =
        some (ActStatus.error, initPool)) ∧
    ((NPLFileName.mk (chars "w") [] (chars "x") []).sNID = [] →
      (NPLFileName.mk (chars "w") [] (chars "x") []).sRuntimeStateName ≠ [] →
      Activate initPool (some 0) (some (chars "(w)x")) (chars "c") =
        (match alistLookup initPool.m_active_state_map
            (NPLFileName.mk (chars "w") [] (chars "x") []).sRuntimeStateName with
         | some rts => some (ActStatus.ok,
             enqueuePool initPool rts
               (NPLFileName.mk (chars "w") [] (chars "x") []).sRelativePath (chars "c"))
         | none => some (ActStatus.noSuchState, initPool))) ∧
    ((NPLFileName.mk (chars "w") [] (chars "x") []).sNID = [] →
      (NPLFileName.mk (chars "w") [] (chars "x") []).sRuntimeStateName = [] →
      Activate initPool (some 0) (some (chars "(w)x")) (chars "c") =
        some (ActStatus.ok,
          enqueuePool initPool 0
            (NPLFileName.mk (chars "w") [] (chars "x") []).sRelativePath (chars "c")))) :=
  ⟨by decide, C1_routing initPool 0 (chars "(w)x") ⟨chars "w", [], chars "x", []⟩
    (chars "c") (by decide)⟩

/-! ### Scan lemmas for the address parser -/

theorem charAt_of_le (s : CStr) (i : Nat) (h : s.length ≤ i) : charAt s i = '\x00' := by
  simp [charAt, List.getElem?_eq_none h]

theorem findStop_none (s : CStr) (c : Char) (i : Nat) (hle : i ≤ s.length)
    (hc : c ∉ s) (hn : '\x00' ∉ s) : findStop s c i = s.length := by
  unfold findStop
  have hidx : (s.drop i).findIdx (fun x => x == c || x == '\x00') = (s.drop i).length := by
    apply List.findIdx_eq_length_of_false
    intro x hx
    have hxs : x ∈ s := List.mem_of_mem_drop hx
    have h1 : x ≠ c := fun h => hc (h ▸ hxs)
    have h2 : x ≠ '\x00' := fun h => hn (h ▸ hxs)
    simp [h1, h2]
  rw [hidx, List.length_drop]
  omega

theorem findStop_cons_lt (a : Char) (t : CStr) (c : Char) (hc : c ∈ t) :
    findStop (a :: t) c 1 < (a :: t).length := by
  unfold findStop
  have hdrop : (a :: t).drop 1 = t := rfl
  rw [hdrop]
  have hlt : t.findIdx (fun x => x == c || x == '\x00') < t.length :=
    List.findIdx_lt_length_of_exists ⟨c, hc, by simp⟩
  simp only [List.length_cons]
  omega

/-- Claim C10 (corrected).  For a non-empty input containing no `:` (and
whose optional leading `(` group is closed, without which the parse reads
out of bounds), the scan for `:` runs to the terminator and the early-return
branch copies the *entire* remainder after the optional `(name)` prefix into
`sRelativePath` verbatim: `sNID` and `sDNSServerName` stay empty, a trailing
`@resolver` suffix is not split off, and this branch bypasses
`SetRelativePath`, so backslashes are not normalised (`C10_counterexample`). -/
theorem C10_no_colon_parse (s : CStr) (hne : s ≠ []) (hcolon : ':' ∉ s)
    (hnul : '\x00' ∉ s) (hparen : charAt s 0 = '(' → ')' ∈ s) :
    ∃ fn, NPLFileName.FromString s = some fn ∧ fn.sNID = [] ∧
      fn.sDNSServerName = [] ∧
      fn.sRelativePath =
        (if charAt s 0 = '(' then s.drop (findStop s ')' 1 + 1) else s) := by
  have hlen : s.length ≠ 0 := fun h => hne (List.length_eq_zero.mp h)
  by_cases hp : charAt s 0 = '('
  · obtain ⟨a, t, rfl⟩ := List.exists_cons_of_ne_nil hne
    have ha : a = '(' := by simpa [charAt] using hp
    have hrp : ')' ∈ t := by
      rcases List.mem_cons.mp (hparen hp) with h1 | h1
      · exact absurd (h1.trans ha) (by decide)
      · exact h1
    have hplt : findStop (a :: t) ')' 1 < (a :: t).length := findStop_cons_lt a t ')' hrp
    simp only [NPLFileName.FromString]
    rw [if_neg hlen, if_pos hp]
    simp only [parseTail]
    rw [if_neg (by omega : ¬ findStop (a :: t) ')' 1 + 1 > (a :: t).length)]
    have hj : findStop (a :: t) ':' (findStop (a :: t) ')' 1 + 1) = (a :: t).length :=
      findStop_none _ _ _ (by omega) hcolon hnul
    rw [hj]
    rw [if_pos (charAt_of_le _ _ (Nat.le_refl _))]
    refine ⟨_, rfl, rfl, rfl, ?_⟩
    rw [if_pos hp]
    unfold substr
    rw [show (a :: t).length - (findStop (a :: t) ')' 1 + 1) =
        ((a :: t).drop (findStop (a :: t) ')' 1 + 1)).length from
      (List.length_drop _ _).symm]
    exact List.take_length _
  · simp only [NPLFileName.FromString]
    rw [if_neg hlen, if_neg hp]
    simp only [parseTail]
    rw [if_neg (by omega : ¬ (0 : Nat) > s.length)]
    have hj : findStop s ':' 0 = s.length := findStop_none s ':' 0 (Nat.zero_le _) hcolon hnul
    rw [hj]
    rw [if_pos (charAt_of_le _ _ (Nat.le_refl _))]
    refine ⟨_, rfl, rfl, rfl, ?_⟩
    rw [if_neg hp]
    unfold substr
    rw [List.drop_zero, Nat.sub_zero]
    exact List.take_length _

/-- Claim C10, witness: the input `"ab@cd"` — non-empty, no `:`, no leading
parenthesis — parses to the verbatim path `"ab@cd"` with empty `sNID` and
`sDNSServerName`. -/
theorem C10_no_colon_parse_witness :
    (chars "ab@cd" ≠ [] ∧ ':' ∉ chars "ab@cd" ∧ '\x00' ∉ chars "ab@cd" ∧
      (charAt (chars "ab@cd") 0 = '(' → ')' ∈ chars "ab@cd")) ∧
    (∃ fn, NPLFileName.FromString (chars "ab@cd") = some fn ∧ fn.sNID = [] ∧
      fn.sDNSServerName = [] ∧
      fn.sRelativePath =
        (if charAt (chars "ab@cd") 0 = '(' then
          (chars "ab@cd").drop (findStop (chars "ab@cd") ')' 1 + 1)
        else chars "ab@cd")) :=
  ⟨⟨by decide, by decide, by decide, by decide⟩,
    C10_no_colon_parse (chars "ab@cd") (by decide) (by decide) (by decide) (by decide)⟩
